/-
  Verification of the AI-Voice-Assistant command interpretation engine.

  Shallow embedding of `src/nlp/command_interpreter.py` (class
  `CommandInterpreter`) and the parts of `src/database/db_manager.py`
  (class `DatabaseManager`) its handlers depend on.

  Modelling conventions:
  * Python strings are Lean `String` / `List Char`; the ASCII fragments of
    the character classes `\s`, `\d`, `\w` are modelled (all concrete
    inputs appearing below are ASCII, and the universally quantified
    theorems do not depend on the class contents).
  * Python floats are modelled as exact rationals `ℚ` (the only float
    arithmetic in the source is `len(match.group(0)) / len(command)`).
  * `re.search` is modelled by an explicit backtracking matcher `mat` /
    `searchA` implementing the leftmost search with greedy quantifiers
    and left-biased alternation, exactly the strategy of CPython's `re`
    for the constructs occurring in the source patterns (literals, `.`,
    character classes, greedy `* + ?`, `(?:a|b)` alternation, capturing
    groups).
  * `datetime.now()` calls inside the source are modelled by threading
    the value read from the wall clock as an explicit parameter `now`.
  * sqlite access is modelled by a state record `Sys`; collaborator
    failures (exceptions raised by the database layer) are injected
    through a `DbOracle` record, since every `db_manager` method may
    `raise` and the interpreter code guards against that.
-/
import Mathlib

namespace VoiceAssistant

/-! ## Python string primitives -/

/-- ASCII whitespace accepted by Python's `\s` and `str.strip()` /
`str.split()`: space, tab, newline, vertical tab, form feed, carriage
return. -/
def isPyWs (c : Char) : Bool :=
  c = ' ' || c = '\t' || c = '\n' || c = '\x0b' || c = '\x0c' || c = '\r'

/-- `str.lower()` on ASCII text (the repository only handles English
commands). -/
def pyLower (s : String) : String :=
  String.mk (s.data.map Char.toLower)

/-- `str.strip()`: drop leading and trailing whitespace. -/
def pyStripList (l : List Char) : List Char :=
  ((l.dropWhile isPyWs).reverse.dropWhile isPyWs).reverse

def pyStrip (s : String) : String :=
  String.mk (pyStripList s.data)

/-- `str.title()` on ASCII: the first letter of every run of cased
characters is uppercased, the rest lowercased. -/
def pyTitleGo (prevAlpha : Bool) : List Char → List Char
  | [] => []
  | c :: rest =>
    if c.isAlpha then
      (if prevAlpha then c.toLower else c.toUpper) :: pyTitleGo true rest
    else
      c :: pyTitleGo false rest

def pyTitle (s : String) : String :=
  String.mk (pyTitleGo false s.data)

/-- `"sub" in s` (Python substring containment). -/
def listIsInfix (needle : List Char) : List Char → Bool
  | [] => needle.isPrefixOf []
  | c :: t => needle.isPrefixOf (c :: t) || listIsInfix needle t

/-- Python's `\w` over ASCII: `[a-zA-Z0-9_]`. -/
def isPyWord (c : Char) : Bool :=
  c.isAlphanum || c = '_'

/-- `re.sub(r'\s+', ' ', s)`: every maximal whitespace run becomes a
single space. -/
def collapseWsGo (prevWs : Bool) : List Char → List Char
  | [] => []
  | c :: rest =>
    if isPyWs c then
      (if prevWs then collapseWsGo true rest else ' ' :: collapseWsGo true rest)
    else
      c :: collapseWsGo false rest

/-- `CommandInterpreter._preprocess_command`: lowercase + strip, collapse
whitespace, then remove every character that is not `\w`, `\s` or one of
`@ . : , -`. -/
def preprocessCommand (command : String) : String :=
  let s1 := pyStripList (pyLower command).data
  let s2 := collapseWsGo false s1
  let s3 := s2.filter fun c =>
    isPyWord c || isPyWs c || c = '@' || c = '.' || c = ':' || c = ',' || c = '-'
  String.mk s3

/-! ## Regular expressions

A syntax covering exactly the constructs used by the source patterns.
Quantifiers in the source are only ever applied to single-character
atoms (`.`, `\s`, `\d`, `\w`, `[a-zA-Z\s]`, `\.`), which the grammar
reflects: `star`/`plus` take a character class. -/

inductive CharClass where
  | dot      -- `.` (anything but newline; DOTALL is not set)
  | ws       -- `\s`
  | digit    -- `\d`
  | word     -- `\w`
  | alphaWs  -- `[a-zA-Z\s]`
deriving DecidableEq, Repr

def ccMatch : CharClass → Char → Bool
  | .dot, c => c ≠ '\n'
  | .ws, c => isPyWs c
  | .digit, c => c.isDigit
  | .word, c => isPyWord c
  | .alphaWs, c => ('a' ≤ c ∧ c ≤ 'z' : Bool) || ('A' ≤ c ∧ c ≤ 'Z' : Bool) || isPyWs c

inductive RE where
  | eps : RE
  | lit (c : Char) : RE
  | cls (p : CharClass) : RE
  | star (p : CharClass) : RE     -- greedy `p*`
  | plus (p : CharClass) : RE     -- greedy `p+`
  | opt (r : RE) : RE             -- greedy `r?`
  | cat (a b : RE) : RE
  | alt (a b : RE) : RE           -- left-biased `a|b`
  | grp (n : Nat) (r : RE) : RE   -- capturing group number `n`
deriving DecidableEq, Repr

/-- Literal character comparison; `ci` is `re.IGNORECASE` (ASCII
folding). -/
def charMatch (ci : Bool) (pat input : Char) : Bool :=
  if ci then pat.toLower = input.toLower else pat = input

/-- Captured groups: association list from group number to captured
characters (most recent capture first; each group number is captured at
most once per match in the source patterns). -/
abbrev Groups := List (Nat × List Char)

/-- Greedy backtracking for a single-character-class quantifier: try the
longest run first (`i` repetitions down to `0`). -/
def starTry {α : Type} (k : List Char → Option α) (s : List Char) : Nat → Option α
  | 0 => k s
  | i + 1 =>
    match k (s.drop (i + 1)) with
    | some a => some a
    | none => starTry k s i

/-- CPS backtracking matcher.  `mat ci r s gs k` tries to match `r`
against a prefix of `s` (with already-captured groups `gs`), calling the
continuation `k` on the remaining suffix for every candidate split, in
exactly the preference order of CPython's backtracking engine: greedy
quantifiers longest-first, alternation left branch first.  The first
success wins — this is `re`'s leftmost match at a fixed start position. -/
def mat {α : Type} (ci : Bool) : RE → List Char → Groups →
    (List Char → Groups → Option α) → Option α
  | .eps, s, gs, k => k s gs
  | .lit c, s, gs, k =>
    match s with
    | [] => none
    | d :: t => if charMatch ci c d then k t gs else none
  | .cls p, s, gs, k =>
    match s with
    | [] => none
    | d :: t => if ccMatch p d then k t gs else none
  | .star p, s, gs, k =>
    starTry (fun s' => k s' gs) s ((s.takeWhile (ccMatch p)).length)
  | .plus p, s, gs, k =>
    match s with
    | [] => none
    | d :: t =>
      if ccMatch p d then
        starTry (fun s' => k s' gs) t ((t.takeWhile (ccMatch p)).length)
      else none
  | .opt r, s, gs, k =>
    match mat ci r s gs k with
    | some a => some a
    | none => k s gs
  | .cat a b, s, gs, k =>
    mat ci a s gs (fun s' gs' => mat ci b s' gs' k)
  | .alt a b, s, gs, k =>
    match mat ci a s gs k with
    | some x => some x
    | none => mat ci b s gs k
  | .grp n r, s, gs, k =>
    mat ci r s gs (fun s' gs' => k s' ((n, s.take (s.length - s'.length)) :: gs'))

/-- `re.search(pattern, s)`: try each start position from the left; the
result is the length of `match.group(0)` together with the captured
groups.  (`match.start()` itself is never used by the source.) -/
def searchA (ci : Bool) (r : RE) : List Char → Option (Nat × Groups)
  | [] =>
    mat ci r [] [] (fun s' gs => some (0 - s'.length, gs))
  | c :: t =>
    match mat ci r (c :: t) [] (fun s' gs => some ((c :: t).length - s'.length, gs)) with
    | some x => some x
    | none => searchA ci r t

/-- Number of characters any match of `r` must consume (a lower bound in
fact attained nowhere smaller; used to show no source pattern matches the
empty string). -/
def minLen : RE → Nat
  | .eps => 0
  | .lit _ => 1
  | .cls _ => 1
  | .star _ => 0
  | .plus _ => 1
  | .opt _ => 0
  | .cat a b => minLen a + minLen b
  | .alt a b => min (minLen a) (minLen b)
  | .grp _ r => minLen r

/-- Whether the compiled pattern contains a capturing group
(`match.groups()` truthiness in the source is exactly "the pattern has at
least one group"). -/
def hasGroups : RE → Bool
  | .eps | .lit _ | .cls _ | .star _ | .plus _ => false
  | .opt r => hasGroups r
  | .cat a b => hasGroups a || hasGroups b
  | .alt a b => hasGroups a || hasGroups b
  | .grp _ _ => true

/-! ## The source patterns (`_load_intent_patterns` and the entity
extraction patterns), transliterated construct by construct. -/

/-- Concatenation of a list of regexes. -/
def rcat (l : List RE) : RE := l.foldr RE.cat RE.eps

/-- A literal string. -/
def rstr (s : String) : RE := rcat (s.data.map RE.lit)

def dotStar : RE := RE.star .dot

/-- `(?:am|pm|AM|PM)` -/
def amPmAlt : RE :=
  RE.alt (rstr "am") (RE.alt (rstr "pm") (RE.alt (rstr "AM") (rstr "PM")))

-- book_appointment patterns
def baP1 : RE := rcat [rstr "book", dotStar, rstr "appointment", dotStar,
  rstr "for", RE.plus .ws, RE.grp 1 (RE.plus .alphaWs)]
def baP2 : RE := rcat [rstr "schedule", dotStar, rstr "appointment", dotStar,
  RE.grp 1 (RE.plus .alphaWs)]
def baP3 : RE := rcat [rstr "make", dotStar, rstr "appointment", dotStar,
  RE.grp 1 (RE.plus .alphaWs)]
def baP4 : RE := rcat [rstr "set", dotStar, rstr "appointment", dotStar,
  RE.grp 1 (RE.plus .alphaWs)]
def baP5 : RE := rcat [rstr "appointment", dotStar, RE.grp 1 (RE.plus .alphaWs),
  dotStar, rstr "at", RE.plus .ws, RE.grp 2 (RE.plus .digit)]
def baP6 : RE := rcat [rstr "book", dotStar, RE.grp 1 (RE.plus .alphaWs),
  dotStar, RE.grp 2 (rcat [RE.plus .digit, RE.star .ws, amPmAlt])]
def baP7 : RE := rcat [rstr "schedule", dotStar, RE.grp 1 (RE.plus .alphaWs),
  dotStar, RE.grp 2 (rcat [RE.plus .digit, RE.star .ws, amPmAlt])]

-- query_patient patterns
def qpP1 : RE := rcat [rstr "show", dotStar,
  RE.alt (rcat [rstr "last", RE.plus .ws, rstr "visit"])
    (RE.alt (rstr "history") (RE.alt (rstr "info") (rstr "information"))),
  dotStar, rstr "for", RE.plus .ws, RE.grp 1 (RE.plus .alphaWs)]
def qpP2 : RE := rcat [rstr "get", dotStar,
  RE.alt (rstr "patient") (RE.alt (rstr "info") (rstr "information")),
  dotStar, RE.grp 1 (RE.plus .alphaWs)]
def qpP3 : RE := rcat [rstr "find", dotStar, rstr "patient", dotStar,
  RE.grp 1 (RE.plus .alphaWs)]
def qpP4 : RE := rcat [rstr "look", dotStar, rstr "up", dotStar,
  RE.grp 1 (RE.plus .alphaWs)]
def qpP5 : RE := rcat [rstr "tell", dotStar, rstr "me", dotStar, rstr "about",
  dotStar, RE.grp 1 (RE.plus .alphaWs)]
def qpP6 : RE := rcat [rstr "what", dotStar, rstr "about", dotStar,
  RE.grp 1 (RE.plus .alphaWs)]
def qpP7 : RE := rcat [RE.grp 1 (RE.plus .alphaWs), dotStar, rstr "patient",
  dotStar, rstr "information"]

-- view_appointments patterns
def vaP1 : RE := rcat [rstr "show", dotStar, rstr "appointments"]
def vaP2 : RE := rcat [rstr "list", dotStar, rstr "appointments"]
def vaP3 : RE := rcat [rstr "what", dotStar, rstr "appointments"]
def vaP4 : RE := rcat [rstr "view", dotStar, rstr "appointments"]
def vaP5 : RE := rcat [rstr "appointments", dotStar, rstr "today"]
def vaP6 : RE := rcat [rstr "today", dotStar, rstr "appointments"]
def vaP7 : RE := rcat [rstr "schedule", dotStar, rstr "today"]

-- view_patients patterns
def vpP1 : RE := rcat [rstr "show", dotStar, rstr "patients"]
def vpP2 : RE := rcat [rstr "list", dotStar, rstr "patients"]
def vpP3 : RE := rcat [rstr "all", dotStar, rstr "patients"]
def vpP4 : RE := rcat [rstr "view", dotStar, rstr "patients"]
def vpP5 : RE := rcat [rstr "patient", dotStar, rstr "list"]

/-- `CommandInterpreter._load_intent_patterns`: the registry, in the
insertion order of the Python dict (Python ≥ 3.7 dicts preserve
insertion order, which is what makes the iteration deterministic). -/
def intentPatterns : List (String × List RE) :=
  [("book_appointment", [baP1, baP2, baP3, baP4, baP5, baP6, baP7]),
   ("query_patient", [qpP1, qpP2, qpP3, qpP4, qpP5, qpP6, qpP7]),
   ("view_appointments", [vaP1, vaP2, vaP3, vaP4, vaP5, vaP6, vaP7]),
   ("view_patients", [vpP1, vpP2, vpP3, vpP4, vpP5]),
   ("greeting", [rstr "hello", rstr "hi", rstr "hey", rstr "good morning",
     rstr "good afternoon", rstr "good evening"]),
   ("help", [rstr "help",
     rcat [rstr "what", dotStar, rstr "can", dotStar, rstr "you", dotStar, rstr "do"],
     rstr "commands", rstr "assistance"])]

/-- The registry flattened to (intent, pattern) pairs, the encounter
order of the nested loops in `_extract_intent_and_entities`. -/
def registryFlat : List (String × RE) :=
  intentPatterns.flatMap fun ip => ip.2.map fun p => (ip.1, p)

/-! ## Entity extraction (`_extract_appointment_entities`,
`_extract_patient_entities`) -/

/-- The Python `entities` dict.  Missing keys are `none`; the source
never stores a null value under a present key. -/
structure Entities where
  patient_name : Option String := none
  time : Option String := none
  doctor : Option String := none
deriving DecidableEq, Repr

def Entities.empty : Entities := {}

/-- `match.group(n)` for the source patterns: each group participates at
most once (no group sits under a quantifier), so the first recorded
capture is the capture.  The source patterns always bind group 1 when the
overall pattern has groups, so the `[]` default is never exercised by a
real match. -/
def group1 (gs : Groups) : List Char := ((gs.lookup 1).getD [])

/-- The five time patterns scanned, in order, by
`_extract_appointment_entities` (these searches are case-sensitive:
no `re.IGNORECASE` flag at those call sites). -/
def timeP1 : RE := rcat [RE.grp 1 (RE.plus .digit), RE.star .ws, amPmAlt]
def timeP2 : RE := rcat [rstr "at", RE.plus .ws, RE.grp 1 (RE.plus .digit)]
def timeP3 : RE := RE.grp 1 (rcat [RE.plus .digit, RE.lit ':', RE.plus .digit])
def timeP4 : RE := RE.grp 1 (RE.alt (rstr "tomorrow") (RE.alt (rstr "today")
  (rcat [rstr "next", RE.plus .ws, RE.plus .word])))
def timeP5 : RE := RE.grp 1 (rcat [RE.plus .digit, RE.star .ws, amPmAlt])

def timePatterns : List RE := [timeP1, timeP2, timeP3, timeP4, timeP5]

/-- `(?:with|doctor|dr\.?)\s+([a-zA-Z\s]+)` -/
def doctorRE : RE :=
  rcat [RE.alt (rstr "with") (RE.alt (rstr "doctor")
          (RE.cat (rstr "dr") (RE.opt (RE.lit '.')))),
        RE.plus .ws, RE.grp 1 (RE.plus .alphaWs)]

/-- First time pattern that matches, returning its `group(1)` (not
stripped — the source stores `time_match.group(1)` as is). -/
def firstTimeToken (command : List Char) : List RE → Option String
  | [] => none
  | p :: rest =>
    match searchA false p command with
    | some (_, gs) => some (String.mk (group1 gs))
    | none => firstTimeToken command rest

/-- `_extract_appointment_entities`.  `hasG` is the truthiness of
`match.groups()` for the winning pattern; `gs` its captures. -/
def extractAppointmentEntities (command : List Char) (hasG : Bool)
    (gs : Groups) : Entities :=
  let pn : Option String :=
    if hasG then some (pyStrip (String.mk (group1 gs))) else none
  let tm : Option String := firstTimeToken command timePatterns
  let dr : Option String :=
    match searchA false doctorRE command with
    | some (_, gs') => some (pyStrip (String.mk (group1 gs')))
    | none => some "Dr. Smith"   -- default doctor
  { patient_name := pn, time := tm, doctor := dr }

/-- `_extract_patient_entities`. -/
def extractPatientEntities (hasG : Bool) (gs : Groups) : Entities :=
  { patient_name :=
      if hasG then some (pyStrip (String.mk (group1 gs))) else none }

/-! ## Intent classification (`_extract_intent_and_entities`) -/

/-- The classifier's running state: the single best match seen so far
plus the entities extracted for it. -/
structure ClsState where
  best_intent : String
  best_conf : ℚ
  entities : Entities
deriving DecidableEq, Repr

def ClsState.init : ClsState := ⟨"unknown", 0, Entities.empty⟩

/-- One iteration of the inner loop of `_extract_intent_and_entities`:
search one pattern, replace the best match only on strictly greater
confidence, and recompute entities when the new winner's intent has an
extractor and the pattern has capture groups. -/
def classifyStep (command : List Char) (st : ClsState)
    (intent : String) (pat : RE) : ClsState :=
  match searchA true pat command with
  | none => st
  | some (g0len, gs) =>
    -- `len(match.group(0)) / len(command)`, as an exact rational.
    -- (`mkRat a b = (a : ℚ) / b` — see `mkRat_eq_div_cast` below; the
    -- normalized constructor is used so that concrete runs reduce.)
    let confidence : ℚ := mkRat g0len command.length
    if st.best_conf < confidence then
      let entities :=
        if hasGroups pat then
          if intent = "book_appointment" then
            extractAppointmentEntities command (hasGroups pat) gs
          else if intent = "query_patient" then
            extractPatientEntities (hasGroups pat) gs
          else st.entities
        else st.entities
      { best_intent := intent, best_conf := confidence, entities := entities }
    else st

/-- `_extract_intent_and_entities`: the nested loops over the registry. -/
def extractIntentAndEntities (command : List Char) : ClsState :=
  intentPatterns.foldl
    (fun st ip => ip.2.foldl (fun st' p => classifyStep command st' ip.1 p) st)
    ClsState.init

/-- The classifier on a `String` (the spec's `classify`), returning the
`(intent, rawEntities, confidence)` triple. -/
def classifyS (s : String) : String × Entities × ℚ :=
  let st := extractIntentAndEntities s.data
  (st.best_intent, st.entities, st.best_conf)

/-! ## Naive `datetime` (`datetime.datetime` without tzinfo)

Python's naive datetimes are records of calendar fields; `timedelta`
arithmetic carries across day/month/year boundaries, `replace` swaps
fields (raising `ValueError` on out-of-range values), comparison is
lexicographic on the fields. -/

structure PyDateTime where
  year : Nat
  month : Nat
  day : Nat
  hour : Nat
  minute : Nat
  second : Nat
  micro : Nat
deriving DecidableEq, Repr

def isLeapYear (y : Nat) : Bool :=
  y % 4 = 0 && (y % 100 ≠ 0 || y % 400 = 0)

def daysInMonth (y m : Nat) : Nat :=
  if m = 2 then (if isLeapYear y then 29 else 28)
  else if m = 4 ∨ m = 6 ∨ m = 9 ∨ m = 11 then 30
  else 31

/-- `d + timedelta(days=1)` (time of day preserved). -/
def addOneDay (d : PyDateTime) : PyDateTime :=
  if d.day < daysInMonth d.year d.month then { d with day := d.day + 1 }
  else if d.month < 12 then { d with month := d.month + 1, day := 1 }
  else { d with year := d.year + 1, month := 1, day := 1 }

/-- `d + timedelta(days=n)` (`timedelta(weeks=1)` is 7 days). -/
def addDays : Nat → PyDateTime → PyDateTime
  | 0, d => d
  | n + 1, d => addDays n (addOneDay d)

/-- `d + timedelta(hours=1)`. -/
def addOneHour (d : PyDateTime) : PyDateTime :=
  if d.hour < 23 then { d with hour := d.hour + 1 }
  else addOneDay { d with hour := 0 }

/-- Order embedding of the lexicographic field comparison: the radices
strictly bound each valid field (month ≤ 12, day ≤ 31, hour ≤ 23,
minute/second ≤ 59, microsecond < 10⁶ < 2²⁰), so on datetimes with
in-range fields `key` compares exactly as Python's `datetime <`. -/
def PyDateTime.key (d : PyDateTime) : Nat :=
  ((((((d.year * 16 + d.month) * 32 + d.day) * 32 + d.hour) * 64 +
      d.minute) * 64 + d.second)) * 1048576 + d.micro

/-- `a < b` on naive datetimes. -/
def pyLtB (a b : PyDateTime) : Bool := a.key < b.key

def pad2 (n : Nat) : String := if n < 10 then "0" ++ toString n else toString n

def pad4 (n : Nat) : String :=
  if n < 10 then "000" ++ toString n
  else if n < 100 then "00" ++ toString n
  else if n < 1000 then "0" ++ toString n
  else toString n

def pad6 (n : Nat) : String :=
  let s := toString n
  let rec zeros : Nat → String
    | 0 => ""
    | k + 1 => "0" ++ zeros k
  zeros (6 - s.length) ++ s

/-- `strftime('%Y-%m-%d at %I:%M %p')` (the appointment time format of
the responses; `%I` is the zero-padded 12-hour clock, `%p` AM/PM). -/
def strftimeBook (d : PyDateTime) : String :=
  pad4 d.year ++ "-" ++ pad2 d.month ++ "-" ++ pad2 d.day ++ " at " ++
  pad2 (if d.hour % 12 = 0 then 12 else d.hour % 12) ++ ":" ++ pad2 d.minute ++
  " " ++ (if d.hour < 12 then "AM" else "PM")

/-- `datetime.isoformat()`: `YYYY-MM-DDTHH:MM:SS[.ffffff]`. -/
def isoformat (d : PyDateTime) : String :=
  pad4 d.year ++ "-" ++ pad2 d.month ++ "-" ++ pad2 d.day ++ "T" ++
  pad2 d.hour ++ ":" ++ pad2 d.minute ++ ":" ++ pad2 d.second ++
  (if d.micro = 0 then "" else "." ++ pad6 d.micro)

/-- `str(datetime)` — what sqlite stores for a TIMESTAMP column bound to
a datetime object, and hence what raw-row f-strings print:
`YYYY-MM-DD HH:MM:SS[.ffffff]`. -/
def pyStrDateTime (d : PyDateTime) : String :=
  pad4 d.year ++ "-" ++ pad2 d.month ++ "-" ++ pad2 d.day ++ " " ++
  pad2 d.hour ++ ":" ++ pad2 d.minute ++ ":" ++ pad2 d.second ++
  (if d.micro = 0 then "" else "." ++ pad6 d.micro)

/-! ## The time resolver (`_parse_time`) -/

def natOfDigits (cs : List Char) : Nat :=
  cs.foldl (fun a c => a * 10 + (c.toNat - '0'.toNat)) 0

/-- `re.search(r'(\d+)', s)`: value of the first maximal digit run. -/
def firstIntToken (cs : List Char) : Option Nat :=
  match cs.dropWhile (fun c => !c.isDigit) with
  | [] => none
  | l => some (natOfDigits (l.takeWhile (·.isDigit)))

/-- Modelled behaviour of `dateutil.parser.parse` on the token shapes the
time scanner can produce, reduced to the only fields the caller reads
(`parsed_time.hour`, `parsed_time.minute`):
* a pure digit token with value 1–31 parses as a day-of-month, leaving
  the default time `00:00` — hour 0, minute 0 (this is why "at 3 pm"
  books midnight: the captured token is the bare "3");
* `H:MM` with a valid hour and minute parses as that time of day;
* everything else (day words such as "tomorrow", out-of-range values)
  raises `ParserError`, sending `_parse_time` into its integer-extraction
  fallback. -/
def dateutilHM (s : String) : Option (Nat × Nat) :=
  let cs := s.data
  if cs ≠ [] ∧ cs.all (·.isDigit) then
    let n := natOfDigits cs
    if 1 ≤ n ∧ n ≤ 31 then some (0, 0) else none
  else
    match cs.span (·.isDigit) with
    | (h, ':' :: m) =>
      if h ≠ [] ∧ m ≠ [] ∧ m.all (·.isDigit) ∧
          natOfDigits h ≤ 23 ∧ natOfDigits m ≤ 59 then
        some (natOfDigits h, natOfDigits m)
      else none
    | _ => none

/-- `CommandInterpreter._parse_time(time_str, full_command)`.

The source has **no** `now` parameter: it calls `datetime.now()` itself
(once on entry, and again in the outer `except` fallback).  The value
read from the wall clock is threaded here as the explicit argument
`now`; both reads are modelled as returning the same instant (they are
microseconds apart in one call). -/
def parseTime (time_str : String) (full_command : String)
    (now : PyDateTime) : PyDateTime :=
  let base :=
    if listIsInfix "tomorrow".data full_command.data then addDays 1 now
    else if listIsInfix "today".data full_command.data then now
    else if listIsInfix "next week".data full_command.data then addDays 7 now
    else addOneHour now                    -- default: 1 hour lead time
  if time_str ≠ "" then
    match dateutilHM time_str with
    | some (h, m) =>
      -- base_date.replace(hour=…, minute=…, second=0, microsecond=0)
      { base with hour := h, minute := m, second := 0, micro := 0 }
    | none =>
      match firstIntToken time_str.data with
      | some hr =>
        let hr :=
          if listIsInfix "pm".data (pyLower time_str).data ∧ hr < 12 then hr + 12
          else if listIsInfix "am".data (pyLower time_str).data ∧ hr = 12 then 0
          else hr
        if hr ≤ 23 then
          { base with hour := hr, minute := 0, second := 0, micro := 0 }
        else
          -- replace(hour=hr) raises ValueError, caught by the outer
          -- except: return datetime.now() + timedelta(hours=1)
          addOneHour now
      | none =>
        -- inner except found no digits: fall through to the final return
        { base with minute := 0, second := 0, micro := 0 }
  else { base with minute := 0, second := 0, micro := 0 }

/-! ## The database collaborator (`db_manager.DatabaseManager`)

sqlite state is modelled by `Sys`; the columns the interpreter reads are
carried (audit columns `created_at`/`updated_at`/`status`, and patient
columns `email`/`date_of_birth`/`medical_history`, are never consulted
by the command interpreter and are omitted).  Every `db_manager` method
may `raise`; an injected `DbOracle` says which call does. -/

structure ApptRec where
  id : Nat
  patient_name : String
  doctor_name : String
  appointment_time : PyDateTime
  notes : String
deriving DecidableEq, Repr

structure PatientRow where
  name : String
  phone : Option String
deriving DecidableEq, Repr

structure VisitRow where
  patient_name : String
  doctor_name : String
  visit_date : PyDateTime
  diagnosis : Option String
deriving DecidableEq, Repr

structure LogRow where
  transcription : String
  command_type : String
  response : String
  confidence : ℚ
deriving DecidableEq, Repr

structure Sys where
  appointments : List ApptRec
  nextApptId : Nat        -- sqlite AUTOINCREMENT cursor.lastrowid
  patients : List PatientRow
  visits : List VisitRow
  logs : List LogRow
deriving DecidableEq, Repr

/-- Which collaborator calls raise during this interpretation (all
`none`: the healthy database). -/
structure DbOracle where
  createRaises : Option String := none
  getApptsRaises : Option String := none
  getPatientsRaises : Option String := none
  getPatientInfoRaises : Option String := none
  logRaises : Option String := none
deriving DecidableEq, Repr

def DbOracle.healthy : DbOracle := {}

/-- Stable insertion sort by a boolean `le`; models SQL `ORDER BY` (ties
are in a fixed deterministic order, which SQL leaves unspecified). -/
def insertLe {α : Type} (le : α → α → Bool) (x : α) : List α → List α
  | [] => [x]
  | y :: t => if le y x then y :: insertLe le x t else x :: y :: t

def sortLe {α : Type} (le : α → α → Bool) (l : List α) : List α :=
  l.foldr (insertLe le) []

def apptLeB (a b : ApptRec) : Bool := a.appointment_time.key ≤ b.appointment_time.key
def patientLeB (a b : PatientRow) : Bool := a.name ≤ b.name
def visitGeB (a b : VisitRow) : Bool := b.visit_date.key ≤ a.visit_date.key

/-- sqlite `LIKE '%frag%'` — case-insensitive (ASCII) substring test. -/
def likeContains (column frag : String) : Bool :=
  listIsInfix (pyLower frag).data (pyLower column).data

/-- `get_appointments`: `SELECT * FROM appointments ORDER BY
appointment_time ASC`. -/
def getAppointments (sys : Sys) : List ApptRec :=
  sortLe apptLeB sys.appointments

/-- `get_all_patients`: `SELECT * FROM patients ORDER BY name`. -/
def getAllPatients (sys : Sys) : List PatientRow :=
  sortLe patientLeB sys.patients

/-- `create_appointment`: INSERT returning `cursor.lastrowid`. -/
def createAppointment (sys : Sys) (patient_name doctor_name : String)
    (appointment_time : PyDateTime) (notes : String) : Nat × Sys :=
  (sys.nextApptId,
   { sys with
       appointments := sys.appointments ++
         [⟨sys.nextApptId, patient_name, doctor_name, appointment_time, notes⟩],
       nextApptId := sys.nextApptId + 1 })

/-- The record `get_patient_info` assembles (base row plus
`recent_visits` and `upcoming_appointments`). -/
structure PatientInfoRec where
  name : String
  phone : Option String
  recent_visits : List VisitRow
  upcoming_appointments : List ApptRec
deriving DecidableEq, Repr

/-- `get_patient_info(name)`: first patient row whose name LIKE-matches,
with the five most recent LIKE-matching visits (DESC) and the upcoming
(`appointment_time > now`, `now` read from the wall clock inside the
method) LIKE-matching appointments (ASC); `none` is the
`{"error": "Patient … not found"}` dictionary. -/
def getPatientInfo (sys : Sys) (patient_name : String) (now : PyDateTime) :
    Option PatientInfoRec :=
  match sys.patients.find? (fun p => likeContains p.name patient_name) with
  | none => none
  | some p =>
    some { name := p.name, phone := p.phone,
           recent_visits :=
             (sortLe visitGeB
               (sys.visits.filter (fun v => likeContains v.patient_name patient_name))).take 5,
           upcoming_appointments :=
             sortLe apptLeB
               (sys.appointments.filter (fun a =>
                 likeContains a.patient_name patient_name &&
                 pyLtB now a.appointment_time)) }

/-! ## Dispatch and handlers (`_process_intent`, `_handle_*`) -/

/-- The `data` payloads returned under the `"data"` key. -/
inductive PyData where
  | appt (appointment_id : Nat)
      (patient_name doctor_name appointment_time : String)
  | apptList (l : List ApptRec)
  | patientList (l : List PatientRow)
  | patientInfo (p : PatientInfoRec)
deriving DecidableEq, Repr

structure HandlerRes where
  response : String
  data : Option PyData
deriving DecidableEq, Repr

/-- `_handle_book_appointment`. -/
def handleBookAppointment (entities : Entities) (command : String)
    (now : PyDateTime) (sys : Sys) (oracle : DbOracle) : HandlerRes × Sys :=
  let patient_name := pyTitle ((entities.patient_name).getD "")
  let doctor_name := (entities.doctor).getD "Dr. Smith"
  let time_str := (entities.time).getD ""
  if patient_name = "" then
    ({ response := "I need a patient name to book an appointment. Please specify who the appointment is for.",
       data := none }, sys)
  else
    let appointment_time := parseTime time_str command now
    match oracle.createRaises with
    | some _ =>
      ({ response := "Sorry, I couldn't book the appointment. Please try again with more specific details.",
         data := none }, sys)
    | none =>
      let (appointment_id, sys') := createAppointment sys patient_name doctor_name
        appointment_time ("Booked via voice command: " ++ command)
      ({ response := "Appointment booked successfully for " ++ patient_name ++
           " with " ++ doctor_name ++ " on " ++ strftimeBook appointment_time ++
           ". Appointment ID: " ++ toString appointment_id,
         data := some (.appt appointment_id patient_name doctor_name
           (isoformat appointment_time)) }, sys')

/-- `_handle_query_patient`. -/
def handleQueryPatient (entities : Entities) (sys : Sys) (now : PyDateTime)
    (oracle : DbOracle) : HandlerRes :=
  let patient_name := pyTitle ((entities.patient_name).getD "")
  if patient_name = "" then
    { response := "Please specify which patient you'd like information about.",
      data := none }
  else
    match oracle.getPatientInfoRaises with
    | some _ =>
      { response := "Sorry, I couldn't retrieve the patient information.", data := none }
    | none =>
      match getPatientInfo sys patient_name now with
      | none =>
        { response := "Patient " ++ patient_name ++ " not found", data := none }
      | some info =>
        let line1 := "Patient: " ++ info.name ++ "\n"
        let line2 := if (info.phone.getD "") ≠ "" then "Phone: " ++ info.phone.getD "" ++ "\n" else ""
        let line3 :=
          match info.recent_visits with
          | [] => ""
          | v :: _ =>
            "Last visit: " ++ pyStrDateTime v.visit_date ++ " with " ++ v.doctor_name ++ "\n" ++
            (if (v.diagnosis.getD "") ≠ "" then "Diagnosis: " ++ v.diagnosis.getD "" ++ "\n" else "")
        let line4 :=
          match info.upcoming_appointments with
          | [] => ""
          | a :: _ =>
            "Next appointment: " ++ pyStrDateTime a.appointment_time ++ " with " ++ a.doctor_name
        { response := line1 ++ line2 ++ line3 ++ line4, data := some (.patientInfo info) }

def apptLine (a : ApptRec) : String :=
  "- " ++ a.patient_name ++ " with " ++ a.doctor_name ++ " on " ++
  strftimeBook a.appointment_time ++ "\n"

def apptLines (l : List ApptRec) : String := String.join (l.map apptLine)

/-- The body of `_handle_view_appointments` after the fetch: `now` is
the wall-clock instant read inside the list comprehension. -/
def handleViewAppointmentsOn (appointments : List ApptRec)
    (now : PyDateTime) : HandlerRes :=
  if appointments.isEmpty then
    { response := "No appointments scheduled.", data := some (.apptList []) }
  else
    let upcoming := appointments.filter (fun apt => pyLtB now apt.appointment_time)
    { response := "You have " ++ toString upcoming.length ++
        " upcoming appointments:\n" ++ apptLines (upcoming.take 5),
      data := some (.apptList upcoming) }

/-- `_handle_view_appointments`. -/
def handleViewAppointments (sys : Sys) (now : PyDateTime)
    (oracle : DbOracle) : HandlerRes :=
  match oracle.getApptsRaises with
  | some _ => { response := "Sorry, I couldn't retrieve the appointments.", data := none }
  | none => handleViewAppointmentsOn (getAppointments sys) now

def patientLine (p : PatientRow) : String :=
  "- " ++ p.name ++
  (if (p.phone.getD "") ≠ "" then " (" ++ p.phone.getD "" ++ ")" else "") ++ "\n"

def patientLines (l : List PatientRow) : String := String.join (l.map patientLine)

/-- The body of `_handle_view_patients` after the fetch. -/
def handleViewPatientsOn (patients : List PatientRow) : HandlerRes :=
  if patients.isEmpty then
    { response := "No patients in the database.", data := some (.patientList []) }
  else
    { response := "You have " ++ toString patients.length ++
        " patients registered:\n" ++ patientLines (patients.take 10),
      data := some (.patientList patients) }

/-- `_handle_view_patients`. -/
def handleViewPatients (sys : Sys) (oracle : DbOracle) : HandlerRes :=
  match oracle.getPatientsRaises with
  | some _ => { response := "Sorry, I couldn't retrieve the patient list.", data := none }
  | none => handleViewPatientsOn (getAllPatients sys)

/-- `_get_help_message` (verbatim, including the two trailing spaces on
the third item). -/
def helpMessage : String :=
  "I can help you with the following commands:\n\n1. Book appointments: \"Book an appointment for John Doe at 3 PM tomorrow\"\n2. Query patients: \"Show last visit for Ahmed Raza\"\n3. View appointments: \"Show today's appointments\"  \n4. View patients: \"List all patients\"\n\nYou can speak naturally, and I'll understand your requests!"

/-- `_process_intent`: stateless routing on the intent string. -/
def processIntent (intent : String) (entities : Entities) (command : String)
    (sys : Sys) (now : PyDateTime) (oracle : DbOracle) : HandlerRes × Sys :=
  if intent = "book_appointment" then
    handleBookAppointment entities command now sys oracle
  else if intent = "query_patient" then
    (handleQueryPatient entities sys now oracle, sys)
  else if intent = "view_appointments" then
    (handleViewAppointments sys now oracle, sys)
  else if intent = "view_patients" then
    (handleViewPatients sys oracle, sys)
  else if intent = "greeting" then
    ({ response := "Hello! I'm AssistX, your medical assistant. How can I help you today?",
       data := none }, sys)
  else if intent = "help" then
    ({ response := helpMessage, data := none }, sys)
  else
    ({ response := "I'm sorry, I didn't understand that command. Try asking me to book an appointment, show patient information, or list appointments.",
       data := none }, sys)

/-! ## The entry point (`interpret`) -/

structure Outcome where
  intent : String
  response : String
  data : Option PyData
  confidence : ℚ
deriving DecidableEq, Repr

/-- The outer `except` boundary of `interpret`. -/
def errorOutcome (e : String) : Outcome :=
  { intent := "error",
    response := "Sorry, I couldn't understand that command. Error: " ++ e,
    data := none, confidence := 0 }

/-- `interpret(command)`.  The try block runs preprocessing,
classification, dispatch, then `log_voice_interaction`; of these only
the collaborator calls can raise, and the handlers catch their own
collaborator failures, so the only failure reaching the outer boundary
is one raised by the logging call itself (this repo's
`log_voice_interaction` swallows its sqlite errors, but `interpret` is
written against an arbitrary collaborator, modelled by
`oracle.logRaises`; the raise happens before the log row is written). -/
def interpret (command : String) (sys : Sys) (now : PyDateTime)
    (oracle : DbOracle) : Outcome × Sys :=
  let cleaned := preprocessCommand command
  let st := extractIntentAndEntities cleaned.data
  let rs := processIntent st.best_intent st.entities cleaned sys now oracle
  match oracle.logRaises with
  | some e => (errorOutcome e, rs.2)
  | none =>
    ({ intent := st.best_intent, response := rs.1.response,
       data := rs.1.data, confidence := st.best_conf },
     { rs.2 with logs := rs.2.logs ++
         [⟨command, st.best_intent, rs.1.response, st.best_conf⟩] })

/-! ## Matcher lemmas

Every result of the CPS matcher is produced by its continuation, applied
to a suffix that leaves at least `minLen r` characters consumed. -/

theorem starTry_some {α : Type} (k : List Char → Option α) (s : List Char) :
    ∀ (i : Nat) (a : α), starTry k s i = some a →
      ∃ j, j ≤ i ∧ k (s.drop j) = some a := by
  intro i
  induction i with
  | zero =>
    intro a h
    exact ⟨0, Nat.le_refl 0, by simpa [starTry] using h⟩
  | succ i ih =>
    intro a h
    rw [starTry] at h
    cases hk : k (s.drop (i + 1)) with
    | some b =>
      simp only [hk] at h
      exact ⟨i + 1, Nat.le_refl _, by rw [hk, h]⟩
    | none =>
      simp only [hk] at h
      obtain ⟨j, hj, hkj⟩ := ih a h
      exact ⟨j, Nat.le_succ_of_le hj, hkj⟩

theorem mat_some {α : Type} (ci : Bool) :
    ∀ (r : RE) (s : List Char) (gs : Groups)
      (k : List Char → Groups → Option α) (a : α),
      mat ci r s gs k = some a →
      ∃ s' gs', s'.length + minLen r ≤ s.length ∧ k s' gs' = some a := by
  intro r
  induction r with
  | eps =>
    intro s gs k a h
    exact ⟨s, gs, by simp [minLen], by simpa [mat] using h⟩
  | lit c =>
    intro s gs k a h
    cases s with
    | nil => simp [mat] at h
    | cons d t =>
      rw [mat] at h
      by_cases hc : charMatch ci c d
      · exact ⟨t, gs, by simp [minLen], by simpa [hc] using h⟩
      · simp [hc] at h
  | cls p =>
    intro s gs k a h
    cases s with
    | nil => simp [mat] at h
    | cons d t =>
      rw [mat] at h
      by_cases hc : ccMatch p d
      · exact ⟨t, gs, by simp [minLen], by simpa [hc] using h⟩
      · simp [hc] at h
  | star p =>
    intro s gs k a h
    rw [mat] at h
    obtain ⟨j, _, hkj⟩ := starTry_some _ _ _ _ h
    exact ⟨s.drop j, gs, by simp [minLen], hkj⟩
  | plus p =>
    intro s gs k a h
    cases s with
    | nil => simp [mat] at h
    | cons d t =>
      rw [mat] at h
      by_cases hc : ccMatch p d
      · rw [if_pos hc] at h
        obtain ⟨j, _, hkj⟩ := starTry_some _ _ _ _ h
        refine ⟨t.drop j, gs, ?_, hkj⟩
        have := List.length_drop j t
        simp only [minLen, List.length_cons]
        omega
      · simp [hc] at h
  | opt r ih =>
    intro s gs k a h
    rw [mat] at h
    cases hm : mat ci r s gs k with
    | some b =>
      simp only [hm] at h
      obtain ⟨s', gs', hlen, hk⟩ := ih s gs k b hm
      exact ⟨s', gs', by simp only [minLen]; omega, by rw [hk, h]⟩
    | none =>
      simp only [hm] at h
      exact ⟨s, gs, by simp [minLen], h⟩
  | cat r₁ r₂ ih₁ ih₂ =>
    intro s gs k a h
    rw [mat] at h
    obtain ⟨s₁, g₁, hl₁, hk₁⟩ := ih₁ s gs _ a h
    obtain ⟨s₂, g₂, hl₂, hk₂⟩ := ih₂ s₁ g₁ k a hk₁
    exact ⟨s₂, g₂, by simp only [minLen]; omega, hk₂⟩
  | alt r₁ r₂ ih₁ ih₂ =>
    intro s gs k a h
    rw [mat] at h
    cases hm : mat ci r₁ s gs k with
    | some b =>
      simp only [hm] at h
      obtain ⟨s', gs', hlen, hk⟩ := ih₁ s gs k b hm
      refine ⟨s', gs', ?_, by rw [hk, h]⟩
      have := Nat.min_le_left (minLen r₁) (minLen r₂)
      simp only [minLen]; omega
    | none =>
      simp only [hm] at h
      obtain ⟨s', gs', hlen, hk⟩ := ih₂ s gs k a h
      refine ⟨s', gs', ?_, hk⟩
      have := Nat.min_le_right (minLen r₁) (minLen r₂)
      simp only [minLen]; omega
  | grp n r ih =>
    intro s gs k a h
    rw [mat] at h
    obtain ⟨s', gs', hlen, hk⟩ := ih s gs _ a h
    exact ⟨s', (n, s.take (s.length - s'.length)) :: gs',
      by simpa [minLen] using hlen, hk⟩

/-- Any `re.search` match satisfies `minLen r ≤ |group 0| ≤ |input|`. -/
theorem searchA_some_bounds (ci : Bool) (r : RE) :
    ∀ (s : List Char) (n : Nat) (gs : Groups),
      searchA ci r s = some (n, gs) → minLen r ≤ n ∧ n ≤ s.length := by
  intro s
  induction s with
  | nil =>
    intro n gs h
    rw [searchA] at h
    obtain ⟨s', gs', hlen, hk⟩ := mat_some ci r [] [] _ (n, gs) h
    simp at hlen
    obtain ⟨hs', hml⟩ := hlen
    simp only [Option.some.injEq, Prod.mk.injEq] at hk
    omega
  | cons c t ih =>
    intro n gs h
    rw [searchA] at h
    cases hm : mat ci r (c :: t) []
        (fun s' gs => some ((c :: t).length - s'.length, gs)) with
    | some x =>
      simp only [hm] at h
      obtain ⟨s', gs', hlen, hk⟩ := mat_some ci r (c :: t) [] _ x hm
      simp only [Option.some.injEq] at hk
      rw [← hk] at h
      simp only [Option.some.injEq, Prod.mk.injEq] at h
      obtain ⟨hn, -⟩ := h
      subst hn
      exact ⟨by omega, Nat.sub_le _ _⟩
    | none =>
      simp only [hm] at h
      obtain ⟨h₁, h₂⟩ := ih n gs h
      exact ⟨h₁, Nat.le_succ_of_le h₂⟩

/-- A pattern that must consume at least one character cannot match the
empty string — the reason the confidence division never divides by
zero. -/
theorem searchA_nil_of_one_le_minLen (ci : Bool) (r : RE)
    (h : 1 ≤ minLen r) : searchA ci r [] = none := by
  cases hs : searchA ci r [] with
  | none => rfl
  | some x =>
    obtain ⟨n, gs⟩ := x
    obtain ⟨h₁, h₂⟩ := searchA_some_bounds ci r [] n gs hs
    simp at h₂
    omega

/-- Every pattern of the registry requires at least one character. -/
theorem registry_minLen_pos : ∀ ip ∈ registryFlat, 1 ≤ minLen ip.2 := by
  decide

/-! ## Classifier fold lemmas -/

/-- One (intent, pattern) iteration, over the flattened registry. -/
def clsStep (command : List Char) (st : ClsState) (ip : String × RE) : ClsState :=
  classifyStep command st ip.1 ip.2

/-- The nested registry loops equal the fold over the flattened
(intent, pattern) list, in encounter order. -/
theorem extract_eq_flat (command : List Char) :
    extractIntentAndEntities command =
      registryFlat.foldl (clsStep command) ClsState.init := rfl

theorem mkRat_eq_div_cast (n d : Nat) : mkRat n d = (n : ℚ) / (d : ℚ) := by
  simp [Rat.mkRat_eq_div]

theorem mkRat_nonneg_nat (n d : Nat) : 0 ≤ mkRat n d := by
  rw [mkRat_eq_div_cast]
  positivity

theorem mkRat_le_one_nat {n d : Nat} (h : n ≤ d) : mkRat n d ≤ 1 := by
  rw [mkRat_eq_div_cast]
  rcases Nat.eq_zero_or_pos d with hd | hd
  · subst hd
    interval_cases n
    norm_num
  · rw [div_le_one (by exact_mod_cast hd)]
    exact_mod_cast h

theorem mkRat_pos_nat {n d : Nat} (hn : 1 ≤ n) (hd : 1 ≤ d) :
    0 < mkRat n d := by
  rw [mkRat_eq_div_cast]
  apply div_pos <;> exact_mod_cast by omega

/-- A single classification step keeps the best confidence in `[0, 1]`. -/
theorem clsStep_conf_bounds (command : List Char) (st : ClsState)
    (ip : String × RE) (h0 : 0 ≤ st.best_conf) (h1 : st.best_conf ≤ 1) :
    0 ≤ (clsStep command st ip).best_conf ∧
      (clsStep command st ip).best_conf ≤ 1 := by
  unfold clsStep classifyStep
  cases hs : searchA true ip.2 command with
  | none => exact ⟨h0, h1⟩
  | some x =>
    obtain ⟨n, gs⟩ := x
    obtain ⟨-, hle⟩ := searchA_some_bounds true ip.2 command n gs hs
    by_cases hlt : st.best_conf < mkRat n command.length
    · simp only [hlt, if_pos]
      exact ⟨mkRat_nonneg_nat _ _, mkRat_le_one_nat hle⟩
    · simp only [hlt, if_neg, if_false]
      exact ⟨h0, h1⟩

theorem fold_conf_bounds (command : List Char) :
    ∀ (l : List (String × RE)) (st : ClsState),
      0 ≤ st.best_conf → st.best_conf ≤ 1 →
      0 ≤ (l.foldl (clsStep command) st).best_conf ∧
        (l.foldl (clsStep command) st).best_conf ≤ 1 := by
  intro l
  induction l with
  | nil => intro st h0 h1; exact ⟨h0, h1⟩
  | cons ip rest ih =>
    intro st h0 h1
    obtain ⟨g0, g1⟩ := clsStep_conf_bounds command st ip h0 h1
    exact ih _ g0 g1

/-- A fold step with no matching pattern leaves the state unchanged. -/
theorem fold_no_match (command : List Char) :
    ∀ (l : List (String × RE)) (st : ClsState),
      (∀ ip ∈ l, searchA true ip.2 command = none) →
      l.foldl (clsStep command) st = st := by
  intro l
  induction l with
  | nil => intro st _; rfl
  | cons ip rest ih =>
    intro st h
    have hip : searchA true ip.2 command = none := h ip (List.mem_cons_self ip rest)
    have hstep : clsStep command st ip = st := by
      unfold clsStep classifyStep
      rw [hip]
    rw [List.foldl_cons, hstep]
    exact ih st fun q hq => h q (List.mem_cons_of_mem ip hq)

/-- One step either keeps the winning intent or writes the iterated
intent. -/
theorem clsStep_intent (command : List Char) (st : ClsState) (ip : String × RE) :
    (clsStep command st ip).best_intent = st.best_intent ∨
      (clsStep command st ip).best_intent = ip.1 := by
  unfold clsStep classifyStep
  cases hs : searchA true ip.2 command with
  | none => exact Or.inl rfl
  | some x =>
    obtain ⟨n, gs⟩ := x
    dsimp only
    split
    · exact Or.inr rfl
    · exact Or.inl rfl

/-- The fold only ever writes intents drawn from the list. -/
theorem fold_intent_mem (command : List Char) :
    ∀ (l : List (String × RE)) (st : ClsState),
      (l.foldl (clsStep command) st).best_intent = st.best_intent ∨
        (l.foldl (clsStep command) st).best_intent ∈ l.map (·.1) := by
  intro l
  induction l with
  | nil => intro st; exact Or.inl rfl
  | cons ip rest ih =>
    intro st
    rw [List.foldl_cons]
    rcases ih (clsStep command st ip) with h | h
    · rw [h]
      rcases clsStep_intent command st ip with h2 | h2
      · exact Or.inl h2
      · exact Or.inr (by simp [h2])
    · exact Or.inr (by simp [h])

/-- The strict-improvement fold keeps the earliest match attaining the
maximal confidence: the final best confidence dominates every match, and
either nothing matched (state untouched) or the registry splits around a
winner `w` whose intent/confidence are the final ones while everything
*before* `w` scored strictly less.  `Hpos` reflects that a match never
has confidence 0 (registry patterns consume at least one character). -/
theorem fold_earliest_max (command : List Char) :
    ∀ (l : List (String × RE)),
    (∀ ip ∈ l, ∀ n gs, searchA true ip.2 command = some (n, gs) →
      0 < mkRat n command.length) →
    (∀ ip ∈ l, ∀ n gs, searchA true ip.2 command = some (n, gs) →
      mkRat n command.length ≤ (l.foldl (clsStep command) ClsState.init).best_conf)
    ∧ (((l.foldl (clsStep command) ClsState.init).best_intent = "unknown"
         ∧ (l.foldl (clsStep command) ClsState.init).best_conf = 0
         ∧ ∀ ip ∈ l, searchA true ip.2 command = none)
       ∨ ∃ P₁ w P₂, l = P₁ ++ w :: P₂
           ∧ (l.foldl (clsStep command) ClsState.init).best_intent = w.1
           ∧ (∃ n gs, searchA true w.2 command = some (n, gs)
               ∧ (l.foldl (clsStep command) ClsState.init).best_conf
                   = mkRat n command.length)
           ∧ ∀ ip ∈ P₁, ∀ n gs, searchA true ip.2 command = some (n, gs) →
               mkRat n command.length
                 < (l.foldl (clsStep command) ClsState.init).best_conf) := by
  intro l
  induction l using List.reverseRecOn with
  | nil =>
    intro _
    exact ⟨by simp, Or.inl ⟨rfl, rfl, by simp⟩⟩
  | append_singleton l x ih =>
    intro Hpos
    have Hpos' : ∀ ip ∈ l, ∀ n gs, searchA true ip.2 command = some (n, gs) →
        0 < mkRat n command.length :=
      fun ip hip => Hpos ip (List.mem_append_left _ hip)
    obtain ⟨ihDom, ihChar⟩ := ih Hpos'
    rw [List.foldl_append, List.foldl_cons, List.foldl_nil]
    set F := l.foldl (clsStep command) ClsState.init with hF
    cases hx : searchA true x.2 command with
    | none =>
      have hstep : clsStep command F x = F := by
        unfold clsStep classifyStep; rw [hx]
      rw [hstep]
      constructor
      · intro ip hip n gs hs
        rcases List.mem_append.mp hip with h | h
        · exact ihDom ip h n gs hs
        · rw [List.mem_singleton.mp h, hx] at hs; cases hs
      · rcases ihChar with ⟨h1, h2, h3⟩ | ⟨P₁, w, P₂, heq, hint, hconf, hstrict⟩
        · refine Or.inl ⟨h1, h2, ?_⟩
          intro ip hip
          rcases List.mem_append.mp hip with h | h
          · exact h3 ip h
          · rw [List.mem_singleton.mp h]; exact hx
        · exact Or.inr ⟨P₁, w, P₂ ++ [x], by rw [heq]; simp, hint, hconf, hstrict⟩
    | some x0 =>
      obtain ⟨n₀, gs₀⟩ := x0
      by_cases hlt : F.best_conf < mkRat n₀ command.length
      · have hsi : (clsStep command F x).best_intent = x.1 := by
          unfold clsStep classifyStep
          rw [hx]; dsimp only; rw [if_pos hlt]
        have hsc : (clsStep command F x).best_conf = mkRat n₀ command.length := by
          unfold clsStep classifyStep
          rw [hx]; dsimp only; rw [if_pos hlt]
        constructor
        · intro ip hip n gs hs
          rw [hsc]
          rcases List.mem_append.mp hip with h | h
          · exact le_trans (ihDom ip h n gs hs) (le_of_lt hlt)
          · rw [List.mem_singleton.mp h, hx] at hs
            simp only [Option.some.injEq, Prod.mk.injEq] at hs
            rw [← hs.1]
        · refine Or.inr ⟨l, x, [], rfl, hsi, ⟨n₀, gs₀, hx, hsc⟩, ?_⟩
          intro ip hip n gs hs
          rw [hsc]
          exact lt_of_le_of_lt (ihDom ip hip n gs hs) hlt
      · have hstep : clsStep command F x = F := by
          unfold clsStep classifyStep
          rw [hx]; dsimp only; rw [if_neg hlt]
        rw [hstep]
        constructor
        · intro ip hip n gs hs
          rcases List.mem_append.mp hip with h | h
          · exact ihDom ip h n gs hs
          · rw [List.mem_singleton.mp h, hx] at hs
            simp only [Option.some.injEq, Prod.mk.injEq] at hs
            rw [← hs.1]
            exact le_of_not_lt hlt
        · rcases ihChar with ⟨h1, h2, h3⟩ | ⟨P₁, w, P₂, heq, hint, hconf, hstrict⟩
          · exfalso
            apply hlt
            rw [h2]
            exact Hpos x (List.mem_append_right _ (List.mem_singleton_self x))
              n₀ gs₀ hx
          · exact Or.inr ⟨P₁, w, P₂ ++ [x], by rw [heq]; simp, hint, hconf, hstrict⟩

/-- Whenever the final winner is an intent with an extractor
(`book_appointment` / `query_patient`), the state's entities are exactly
the extraction for that winner's match: extraction is recomputed at
every replacement, so the last replacement (the final winner) decided
them.  The hypothesis records that every pattern of those two intents
has capture groups, which is what triggers the recomputation. -/
theorem fold_entities_winner (command : List Char) :
    ∀ (l : List (String × RE)),
    (∀ ip ∈ l, (ip.1 = "book_appointment" → hasGroups ip.2 = true)
             ∧ (ip.1 = "query_patient" → hasGroups ip.2 = true)) →
    ((l.foldl (clsStep command) ClsState.init).best_intent = "book_appointment" →
      ∃ p n gs, ("book_appointment", p) ∈ l
        ∧ searchA true p command = some (n, gs)
        ∧ (l.foldl (clsStep command) ClsState.init).best_conf = mkRat n command.length
        ∧ (l.foldl (clsStep command) ClsState.init).entities
            = extractAppointmentEntities command (hasGroups p) gs)
    ∧ ((l.foldl (clsStep command) ClsState.init).best_intent = "query_patient" →
      ∃ p n gs, ("query_patient", p) ∈ l
        ∧ searchA true p command = some (n, gs)
        ∧ (l.foldl (clsStep command) ClsState.init).best_conf = mkRat n command.length
        ∧ (l.foldl (clsStep command) ClsState.init).entities
            = extractPatientEntities (hasGroups p) gs) := by
  intro l
  induction l using List.reverseRecOn with
  | nil =>
    intro _
    constructor
    · intro h; simp [ClsState.init] at h
    · intro h; simp [ClsState.init] at h
  | append_singleton l x ih =>
    intro Hgrp
    have Hgrp' : ∀ ip ∈ l, (ip.1 = "book_appointment" → hasGroups ip.2 = true)
        ∧ (ip.1 = "query_patient" → hasGroups ip.2 = true) :=
      fun ip hip => Hgrp ip (List.mem_append_left _ hip)
    obtain ⟨ihBa, ihQp⟩ := ih Hgrp'
    rw [List.foldl_append, List.foldl_cons, List.foldl_nil]
    set F := l.foldl (clsStep command) ClsState.init with hF
    cases hx : searchA true x.2 command with
    | none =>
      have hstep : clsStep command F x = F := by
        unfold clsStep classifyStep; rw [hx]
      rw [hstep]
      constructor
      · intro h
        obtain ⟨p, n, gs, hm, h2, h3, h4⟩ := ihBa h
        exact ⟨p, n, gs, List.mem_append_left _ hm, h2, h3, h4⟩
      · intro h
        obtain ⟨p, n, gs, hm, h2, h3, h4⟩ := ihQp h
        exact ⟨p, n, gs, List.mem_append_left _ hm, h2, h3, h4⟩
    | some x0 =>
      obtain ⟨n₀, gs₀⟩ := x0
      by_cases hlt : F.best_conf < mkRat n₀ command.length
      · have hsi : (clsStep command F x).best_intent = x.1 := by
          unfold clsStep classifyStep
          rw [hx]; dsimp only; rw [if_pos hlt]
        have hsc : (clsStep command F x).best_conf = mkRat n₀ command.length := by
          unfold clsStep classifyStep
          rw [hx]; dsimp only; rw [if_pos hlt]
        have hse : (clsStep command F x).entities =
            (if hasGroups x.2 then
              if x.1 = "book_appointment" then
                extractAppointmentEntities command (hasGroups x.2) gs₀
              else if x.1 = "query_patient" then
                extractPatientEntities (hasGroups x.2) gs₀
              else F.entities
            else F.entities) := by
          unfold clsStep classifyStep
          rw [hx]; dsimp only; rw [if_pos hlt]
        constructor
        · intro h
          have hba : x.1 = "book_appointment" := by rw [← hsi]; exact h
          have hg : hasGroups x.2 = true :=
            (Hgrp x (List.mem_append_right _ (List.mem_singleton_self x))).1 hba
          refine ⟨x.2, n₀, gs₀, ?_, hx, hsc, ?_⟩
          · rw [← hba]
            exact List.mem_append_right _ (by simp)
          · rw [hse, if_pos hg, if_pos hba]
        · intro h
          have hqp : x.1 = "query_patient" := by rw [← hsi]; exact h
          have hg : hasGroups x.2 = true :=
            (Hgrp x (List.mem_append_right _ (List.mem_singleton_self x))).2 hqp
          have hnotba : ¬(x.1 = "book_appointment") := by
            rw [hqp]; decide
          refine ⟨x.2, n₀, gs₀, ?_, hx, hsc, ?_⟩
          · rw [← hqp]
            exact List.mem_append_right _ (by simp)
          · rw [hse, if_pos hg, if_neg hnotba, if_pos hqp]
      · have hstep : clsStep command F x = F := by
          unfold clsStep classifyStep
          rw [hx]; dsimp only; rw [if_neg hlt]
        rw [hstep]
        constructor
        · intro h
          obtain ⟨p, n, gs, hm, h2, h3, h4⟩ := ihBa h
          exact ⟨p, n, gs, List.mem_append_left _ hm, h2, h3, h4⟩
        · intro h
          obtain ⟨p, n, gs, hm, h2, h3, h4⟩ := ihQp h
          exact ⟨p, n, gs, List.mem_append_left _ hm, h2, h3, h4⟩

/-! ## Shared facts about the registry -/

/-- A registry match never has confidence 0: its pattern consumes at
least one character, so the input is nonempty and the ratio positive. -/
theorem registry_match_conf_pos (command : List Char) :
    ∀ ip ∈ registryFlat, ∀ n gs, searchA true ip.2 command = some (n, gs) →
      0 < mkRat n command.length := by
  intro ip hip n gs hs
  obtain ⟨h1, h2⟩ := searchA_some_bounds true ip.2 command n gs hs
  have hm := registry_minLen_pos ip hip
  exact mkRat_pos_nat (by omega) (by omega)

/-- The classifier never produces the reserved intent `"error"`. -/
theorem best_intent_ne_error (command : List Char) :
    (extractIntentAndEntities command).best_intent ≠ "error" := by
  rw [extract_eq_flat]
  rcases fold_intent_mem command registryFlat ClsState.init with h | h
  · rw [h]; decide
  · intro hc
    rw [hc] at h
    exact absurd h (by decide)

/-- Concrete fixtures used by closed theorems below. -/
def emptySys : Sys := ⟨[], 1, [], [], []⟩

def demoNow : PyDateTime := ⟨2024, 1, 1, 10, 0, 0, 0⟩

/-! ## Claim theorems -/

/-- C1: for every input string the classification confidence lies in
[0, 1]; with no pattern match it is 0, and any nonzero value is the
matched substring's length divided by the text's length (hence ≤ 1). -/
theorem confidence_in_unit_interval (s : String) :
    0 ≤ (extractIntentAndEntities s.data).best_conf
    ∧ (extractIntentAndEntities s.data).best_conf ≤ 1
    ∧ ((∀ ip ∈ registryFlat, searchA true ip.2 s.data = none) →
        (extractIntentAndEntities s.data).best_conf = 0)
    ∧ ((extractIntentAndEntities s.data).best_conf = 0
       ∨ ∃ ip ∈ registryFlat, ∃ n gs, searchA true ip.2 s.data = some (n, gs)
           ∧ (extractIntentAndEntities s.data).best_conf
               = (n : ℚ) / (s.data.length : ℚ)) := by
  rw [extract_eq_flat]
  obtain ⟨h0, h1⟩ := fold_conf_bounds s.data registryFlat ClsState.init
    (le_refl 0) (by decide)
  refine ⟨h0, h1, ?_, ?_⟩
  · intro hall
    rw [fold_no_match s.data registryFlat ClsState.init hall]
    rfl
  · rcases (fold_earliest_max s.data registryFlat
        (registry_match_conf_pos s.data)).2 with ⟨-, h2, -⟩ |
        ⟨P₁, w, P₂, heq, -, ⟨n, gs, hs, hc⟩, -⟩
    · exact Or.inl h2
    · refine Or.inr ⟨w, by rw [heq]; simp, n, gs, hs, ?_⟩
      rw [hc, mkRat_eq_div_cast]

/-- C1 witness: on the empty string no registry pattern matches, and the
confidence is 0. -/
theorem confidence_in_unit_interval_witness :
    (extractIntentAndEntities "".data).best_conf = 0 :=
  (confidence_in_unit_interval "").2.2.1 (by decide)

/-- C2: the classifier's result dominates every pattern match, and is
either the untouched initial state (nothing matched) or the *earliest*
(registry-order) match attaining the maximal confidence — every match
strictly before the winner scores strictly less, so a later equal score
never replaces it.  (Determinism/idempotence is definitional: the
registry iteration order is the fixed list `registryFlat`.) -/
theorem classification_earliest_strict_max (s : String) :
    (∀ ip ∈ registryFlat, ∀ n gs, searchA true ip.2 s.data = some (n, gs) →
      (n : ℚ) / (s.data.length : ℚ) ≤ (extractIntentAndEntities s.data).best_conf)
    ∧ (((extractIntentAndEntities s.data).best_intent = "unknown"
         ∧ (extractIntentAndEntities s.data).best_conf = 0
         ∧ ∀ ip ∈ registryFlat, searchA true ip.2 s.data = none)
       ∨ ∃ P₁ w P₂, registryFlat = P₁ ++ w :: P₂
           ∧ (extractIntentAndEntities s.data).best_intent = w.1
           ∧ (∃ n gs, searchA true w.2 s.data = some (n, gs)
               ∧ (extractIntentAndEntities s.data).best_conf
                   = (n : ℚ) / (s.data.length : ℚ))
           ∧ ∀ ip ∈ P₁, ∀ n gs, searchA true ip.2 s.data = some (n, gs) →
               (n : ℚ) / (s.data.length : ℚ)
                 < (extractIntentAndEntities s.data).best_conf) := by
  simp only [extract_eq_flat, ← mkRat_eq_div_cast]
  exact fold_earliest_max s.data registryFlat (registry_match_conf_pos s.data)

/-- C2 witness: the `greeting` pattern `hello` matches `"hello"` whole,
and the final confidence dominates its score. -/
theorem classification_earliest_strict_max_witness :
    mkRat 5 "hello".data.length ≤ (extractIntentAndEntities "hello".data).best_conf := by
  have h := (classification_earliest_strict_max "hello").1
    ("greeting", rstr "hello") (by decide) 5 [] (by decide)
  rw [← mkRat_eq_div_cast] at h
  exact h

/-- C3 (code bug): `_parse_time` takes no `now` parameter — it reads
`datetime.now()` internally — so its result changes with the wall clock
even for identical `(time token, full text)` arguments: at 10:00 the
default resolution is 11:00, at 11:00 it is 12:00. -/
theorem parseTime_reads_wall_clock :
    parseTime "" "x" ⟨2024, 1, 1, 10, 0, 0, 0⟩
      ≠ parseTime "" "x" ⟨2024, 1, 1, 11, 0, 0, 0⟩ := by decide

/-- C4 (code bug): interpreting the repository's own canonical example
"Book an appointment for John Doe at 3 PM tomorrow" classifies
`book_appointment` (confidence 40/49) but the winning pattern
`book.*([a-zA-Z\s]+).*(\d+\s*(?:am|pm|AM|PM))` captures a single space
as group 1, so `patient_name` is empty and the handler returns the
clarification with `data = None` and books nothing — contradicting the
spec's 15:00 booking and the repo's `test_book_appointment_intent`. -/
theorem book_example_returns_clarification (sys : Sys) (now : PyDateTime) :
    interpret "Book an appointment for John Doe at 3 PM tomorrow"
        sys now DbOracle.healthy =
      ({ intent := "book_appointment",
         response := "I need a patient name to book an appointment. Please specify who the appointment is for.",
         data := none, confidence := mkRat 40 49 },
       { sys with logs := sys.logs ++
           [⟨"Book an appointment for John Doe at 3 PM tomorrow",
             "book_appointment",
             "I need a patient name to book an appointment. Please specify who the appointment is for.",
             mkRat 40 49⟩] }) := rfl

/-- C5 counterexample: on "book a 1pm show appointments" a
`book_appointment` pattern matches first (setting entities), then a
`view_appointments` pattern wins with higher confidence — but that
intent has no capture groups, so the stale entities of the replaced
winner survive into the result. -/
theorem stale_entities_survive_replaced_winner :
    extractIntentAndEntities "book a 1pm show appointments".data
      = ⟨"view_appointments", mkRat 17 28,
          ⟨some "", some "1", some "Dr. Smith"⟩⟩
    ∧ (⟨some "", some "1", some "Dr. Smith"⟩ : Entities) ≠ Entities.empty := by
  constructor
  · decide
  · decide

/-- C5 (amended): when the finally winning intent is one *with* capture
groups (`book_appointment` / `query_patient`), the returned rawEntities
are exactly the extraction recomputed for that winner's match; keys are
plain absences (`none`), never null placeholders.  When a groupless
intent wins after replacing such a winner, its stale entities survive
(see the counterexample). -/
theorem raw_entities_belong_to_final_winner (s : String) :
    ((extractIntentAndEntities s.data).best_intent = "book_appointment" →
      ∃ p n gs, ("book_appointment", p) ∈ registryFlat
        ∧ searchA true p s.data = some (n, gs)
        ∧ (extractIntentAndEntities s.data).best_conf = mkRat n s.data.length
        ∧ (extractIntentAndEntities s.data).entities
            = extractAppointmentEntities s.data (hasGroups p) gs)
    ∧ ((extractIntentAndEntities s.data).best_intent = "query_patient" →
      ∃ p n gs, ("query_patient", p) ∈ registryFlat
        ∧ searchA true p s.data = some (n, gs)
        ∧ (extractIntentAndEntities s.data).best_conf = mkRat n s.data.length
        ∧ (extractIntentAndEntities s.data).entities
            = extractPatientEntities (hasGroups p) gs) := by
  simp only [extract_eq_flat]
  exact fold_entities_winner s.data registryFlat (by decide)

/-- C5 witness: on "book appointment for john doe" the winner is
`book_appointment` and the entities are its own extraction. -/
theorem raw_entities_belong_to_final_winner_witness :
    ∃ p n gs, ("book_appointment", p) ∈ registryFlat
      ∧ searchA true p "book appointment for john doe".data = some (n, gs)
      ∧ (extractIntentAndEntities "book appointment for john doe".data).best_conf
          = mkRat n "book appointment for john doe".data.length
      ∧ (extractIntentAndEntities "book appointment for john doe".data).entities
          = extractAppointmentEntities "book appointment for john doe".data
              (hasGroups p) gs :=
  (raw_entities_belong_to_final_winner "book appointment for john doe").1 (by decide)

/-- C6 counterexample: a successful booking persists
`notes = "Booked via voice command: " + cleaned command`, not the
original command itself. -/
theorem booked_notes_not_original_command :
    ((interpret "book appointment for john doe" emptySys demoNow
        DbOracle.healthy).2.appointments.map (fun a => a.notes))
      = ["Booked via voice command: book appointment for john doe"]
    ∧ "Booked via voice command: book appointment for john doe"
        ≠ "book appointment for john doe" := by
  constructor
  · decide
  · decide

/-- C6 (amended): with a healthy store, `_handle_book_appointment`
returns the clarification with `data = None` and an unchanged store when
the (title-cased) patient name is absent or empty; otherwise it persists
exactly `(patientName title-cased, doctorName (default "Dr. Smith"),
resolved time, notes = "Booked via voice command: " + command)` under
the next identifier and returns `data` carrying the identifier, names
and ISO time, with the formatted time and identifier in the response. -/
theorem handleBookAppointment_spec (e : Entities) (cmd : String)
    (now : PyDateTime) (sys : Sys) :
    handleBookAppointment e cmd now sys DbOracle.healthy =
      (if pyTitle (e.patient_name.getD "") = "" then
        ({ response := "I need a patient name to book an appointment. Please specify who the appointment is for.",
           data := none }, sys)
      else
        ({ response := "Appointment booked successfully for "
             ++ pyTitle (e.patient_name.getD "") ++ " with "
             ++ e.doctor.getD "Dr. Smith" ++ " on "
             ++ strftimeBook (parseTime (e.time.getD "") cmd now)
             ++ ". Appointment ID: " ++ toString sys.nextApptId,
           data := some (.appt sys.nextApptId (pyTitle (e.patient_name.getD ""))
             (e.doctor.getD "Dr. Smith")
             (isoformat (parseTime (e.time.getD "") cmd now))) },
         { sys with
             appointments := sys.appointments ++
               [⟨sys.nextApptId, pyTitle (e.patient_name.getD ""),
                 e.doctor.getD "Dr. Smith", parseTime (e.time.getD "") cmd now,
                 "Booked via voice command: " ++ cmd⟩],
             nextApptId := sys.nextApptId + 1 })) := by
  unfold handleBookAppointment createAppointment
  by_cases h : pyTitle (e.patient_name.getD "") = ""
  · simp only [if_pos h]
  · simp only [if_neg h]
    rfl

/-- C7 counterexample: on the empty store list the response is the fixed
"No appointments scheduled." — it does not report a count of 0. -/
theorem view_appointments_empty_no_count :
    (handleViewAppointmentsOn [] demoNow).response = "No appointments scheduled."
    ∧ "No appointments scheduled."
        ≠ "You have "
          ++ toString (List.length (List.filter
              (fun a => pyLtB demoNow a.appointment_time) ([] : List ApptRec)))
          ++ " upcoming appointments:\n"
          ++ apptLines (List.take 5 (List.filter
              (fun a => pyLtB demoNow a.appointment_time) ([] : List ApptRec))) := by
  constructor
  · decide
  · decide

/-- The ascending-time order of the Scheduling Store's lists. -/
def apptTimeLE (a b : ApptRec) : Prop :=
  a.appointment_time.key ≤ b.appointment_time.key

instance : DecidableRel apptTimeLE := fun a b =>
  inferInstanceAs (Decidable (a.appointment_time.key ≤ b.appointment_time.key))

/-- C7 (amended): for every *nonempty* (time-ascending, as
`get_appointments` returns it) appointment list, the handler's `data` is
the entire untruncated sublist of appointments strictly after `now`,
still sorted ascending, and the response reports that sublist's length
and lists at most its first 5 entries.  (On the empty list the response
is the fixed "No appointments scheduled." — see the counterexample.) -/
theorem view_appointments_spec (appts : List ApptRec) (now : PyDateTime)
    (hsorted : appts.Pairwise apptTimeLE) (hne : appts ≠ []) :
    (handleViewAppointmentsOn appts now).data
        = some (.apptList (appts.filter (fun a => pyLtB now a.appointment_time)))
    ∧ (appts.filter (fun a => pyLtB now a.appointment_time)).Pairwise apptTimeLE
    ∧ (handleViewAppointmentsOn appts now).response
        = "You have "
          ++ toString (appts.filter (fun a => pyLtB now a.appointment_time)).length
          ++ " upcoming appointments:\n"
          ++ apptLines ((appts.filter (fun a => pyLtB now a.appointment_time)).take 5) := by
  have hemp : appts.isEmpty = false := by
    cases appts with
    | nil => exact absurd rfl hne
    | cons a t => rfl
  unfold handleViewAppointmentsOn
  rw [if_neg (by simp [hemp])]
  exact ⟨rfl, List.Pairwise.sublist (List.filter_sublist _) hsorted, rfl⟩

/-- C7 witness: the spec's own test — appointments at now−1h, now+1h,
now+2h yield exactly the two future ones, ascending, count 2. -/
theorem view_appointments_spec_witness :
    (handleViewAppointmentsOn
        [⟨1, "Zara Ahmed", "Dr. Wilson", ⟨2024, 1, 1, 9, 0, 0, 0⟩, ""⟩,
         ⟨2, "Hassan Shah", "Dr. Davis", ⟨2024, 1, 1, 11, 0, 0, 0⟩, ""⟩,
         ⟨3, "Ahmed Raza", "Dr. Smith", ⟨2024, 1, 1, 12, 0, 0, 0⟩, ""⟩]
        demoNow).data
      = some (.apptList
          [⟨2, "Hassan Shah", "Dr. Davis", ⟨2024, 1, 1, 11, 0, 0, 0⟩, ""⟩,
           ⟨3, "Ahmed Raza", "Dr. Smith", ⟨2024, 1, 1, 12, 0, 0, 0⟩, ""⟩]) := by
  have h := view_appointments_spec
    [⟨1, "Zara Ahmed", "Dr. Wilson", ⟨2024, 1, 1, 9, 0, 0, 0⟩, ""⟩,
     ⟨2, "Hassan Shah", "Dr. Davis", ⟨2024, 1, 1, 11, 0, 0, 0⟩, ""⟩,
     ⟨3, "Ahmed Raza", "Dr. Smith", ⟨2024, 1, 1, 12, 0, 0, 0⟩, ""⟩]
    demoNow (by decide) (by decide)
  exact h.1

/-- C8: the classifier is total — no registry pattern matches the empty
normalized text (so the confidence division is never a division by
zero), and `classify("")` is `("unknown", {}, 0.0)`. -/
theorem classifier_total_empty_unknown :
    (∀ command : List Char, command = [] →
      ∀ ip ∈ registryFlat, searchA true ip.2 command = none)
    ∧ classifyS "" = ("unknown", Entities.empty, 0) := by
  constructor
  · intro command hc ip hip
    subst hc
    exact searchA_nil_of_one_le_minLen true ip.2 (registry_minLen_pos ip hip)
  · decide

/-- C8 witness: the first registry pattern on the empty string, and the
empty-string classification. -/
theorem classifier_total_empty_unknown_witness :
    searchA true baP1 [] = none
    ∧ classifyS "" = ("unknown", Entities.empty, 0) :=
  ⟨classifier_total_empty_unknown.1 [] rfl ("book_appointment", baP1) (by decide),
   classifier_total_empty_unknown.2⟩

/-- C9: `interpret` never raises: if the (only unguarded) collaborator
call — logging — raises, the outer boundary returns `intent = "error"`,
`confidence = 0`, `data = None`, with the diagnostic embedded in the
response; otherwise the outcome's intent is never `"error"`. -/
theorem interpret_outer_boundary :
    (∀ (command : String) (sys : Sys) (now : PyDateTime) (oracle : DbOracle)
      (e : String), oracle.logRaises = some e →
      (interpret command sys now oracle).1 = errorOutcome e)
    ∧ (∀ (command : String) (sys : Sys) (now : PyDateTime) (oracle : DbOracle),
      oracle.logRaises = none →
      (interpret command sys now oracle).1.intent ≠ "error") := by
  constructor
  · intro command sys now oracle e h
    unfold interpret
    rw [h]
  · intro command sys now oracle h
    unfold interpret
    rw [h]
    exact best_intent_ne_error (preprocessCommand command).data

/-- C9 witness: a raising logger yields the error outcome; a healthy one
never yields intent "error". -/
theorem interpret_outer_boundary_witness :
    (interpret "hello" emptySys demoNow
        ⟨none, none, none, none, some "db down"⟩).1 = errorOutcome "db down"
    ∧ (interpret "hello" emptySys demoNow DbOracle.healthy).1.intent ≠ "error" :=
  ⟨interpret_outer_boundary.1 "hello" emptySys demoNow _ "db down" rfl,
   interpret_outer_boundary.2 "hello" emptySys demoNow _ rfl⟩

/-- C10: on empty fetches the listing handlers answer with their fixed
messages and `data = []` (not null), and on *every* successful fetch
their `data` is non-null. -/
theorem listing_handlers_empty_and_data_nonnull :
    (∀ now : PyDateTime, handleViewAppointmentsOn [] now =
      { response := "No appointments scheduled.", data := some (.apptList []) })
    ∧ handleViewPatientsOn [] =
      { response := "No patients in the database.", data := some (.patientList []) }
    ∧ (∀ (appts : List ApptRec) (now : PyDateTime),
        (handleViewAppointmentsOn appts now).data ≠ none)
    ∧ (∀ patients : List PatientRow, (handleViewPatientsOn patients).data ≠ none) := by
  refine ⟨fun now => rfl, rfl, ?_, ?_⟩
  · intro appts now
    unfold handleViewAppointmentsOn
    split <;> simp
  · intro patients
    unfold handleViewPatientsOn
    split <;> simp

end VoiceAssistant
